import Mathlib

/-!
Verification development for TuxSplit's duration-formatting and
split-classification core.

Shallow embedding conventions:
- Rust `String` buffers are modelled as `List Char`.
- `time::Duration` / `livesplit_core::TimeSpan` values are modelled by their
  total milliseconds (or nanoseconds where noted) as `Int`.
- Rust's decimal rendering `format!` is modelled via `Nat.repr`.
- The only potential panic site in the formatter, the byte slice
  `&base[..width]`, is modelled by an `Option`-returning slice, so the
  formatter returns `Option (List Char)` and totality is a theorem.
-/

namespace TuxSplit

/-! ### Decimal digit rendering (the `format!` machinery used by the source) -/

/-- Decimal digit characters of a natural number, as produced by Rust's
plain decimal formatting of a nonnegative integer. -/
def numChars (n : Nat) : List Char := (Nat.repr n).data

/-- Rust's zero-padded formatting x7b:0width$x7d of a nonnegative integer:
pad with leading zeros up to the requested width, never truncating. -/
def padZeros (width : Nat) (n : Nat) : List Char :=
  List.replicate (width - (numChars n).length) '0' ++ numChars n

theorem numChars_ne_nil (n : Nat) : numChars n ≠ [] := by
  have core_len : ∀ (f n : Nat) (l : List Char),
      l.length ≤ (Nat.toDigitsCore 10 f n l).length := by
    intro f
    induction f with
    | zero => intro n l; simp [Nat.toDigitsCore]
    | succ f ih =>
      intro n l
      simp only [Nat.toDigitsCore]
      split
      · simp
      · exact le_trans (by simp) (ih (n / 10) (Nat.digitChar (n % 10) :: l))
  unfold numChars Nat.repr Nat.toDigits
  intro hnil
  have : ((Nat.toDigitsCore 10 (n + 1) n []).asString).data
      = Nat.toDigitsCore 10 (n + 1) n [] := rfl
  rw [this] at hnil
  simp only [Nat.toDigitsCore] at hnil
  split at hnil
  · simp at hnil
  · have := core_len n (n / 10) [Nat.digitChar (n % 10)]
    rw [hnil] at this
    simp at this

theorem padZeros_length (w n : Nat) : w ≤ (padZeros w n).length := by
  unfold padZeros
  simp only [List.length_append, List.length_replicate]
  omega

theorem padZeros_natural (n : Nat) : padZeros (numChars n).length n = numChars n := by
  unfold padZeros
  simp

/-! ### src/formatters/time.rs — `TimeFormat` and pattern resolution -/

/-- The `TimeFormat` struct of src/formatters/time.rs. `decimal_places` is a
`u8` in the source, modelled as `Nat`; the cached pattern `String` is a
`List Char`. -/
structure TimeFormat where
  show_hours : Bool
  show_minutes : Bool
  show_seconds : Bool
  show_decimals : Bool
  decimal_places : Nat
  dynamic : Bool
  cached_pattern : Option (List Char)
deriving DecidableEq

/-- The `Default` impl: mirrors the pattern "h:m:s.dd". -/
def TimeFormat.default : TimeFormat :=
  { show_hours := true, show_minutes := true, show_seconds := true,
    show_decimals := true, decimal_places := 2, dynamic := false,
    cached_pattern := none }

/-- The local closure `push_sep` of `compute_pattern`: append the separator
only when the pattern buffer is non-empty. -/
def push_sep (sep : Char) (pat : List Char) : List Char :=
  if pat = [] then pat else pat ++ [sep]

/-- The pattern-construction part of `compute_pattern`
(src/formatters/time.rs lines 75-116), taking the dynamically resolved
visibility of each component plus the configured fields that the fallback
branch reads directly from `self` (`self.show_seconds`,
`self.show_decimals`, `self.decimal_places`). -/
def build_pattern (sh sm ss sd : Bool) (dp : Nat) (cfg_ss cfg_sd : Bool) :
    List Char :=
  let p1 : List Char := if sh then ['h'] else []
  let p2 : List Char := if sm then push_sep ':' p1 ++ ['m'] else p1
  let p3 : List Char := if ss then push_sep ':' p2 ++ ['s'] else p2
  let p4 : List Char :=
    if sd ∧ 0 < dp then p3 ++ '.' :: List.replicate dp 'd' else p3
  if p4 = [] then
    if cfg_ss then
      's' :: (if cfg_sd ∧ 0 < dp then '.' :: List.replicate dp 'd' else [])
    else ['s']
  else p4

/-- `TimeFormat::compute_pattern` (src/formatters/time.rs lines 45-117).
The first step resolves the effective visibility flags (the source mutates
local copies of `show_hours`, `show_minutes`, `show_decimals`;
`show_seconds` is never mutated), then the pattern is built. -/
def compute_pattern (tf : TimeFormat) (total_millis : Option Int) :
    List Char :=
  let fl : Bool × Bool × Bool :=
    if tf.dynamic then
      match total_millis with
      | some ms =>
        if ms < 60000 then
          (false, false, tf.show_decimals)
        else if ms < 3600000 then
          (false, tf.show_minutes,
            if tf.show_minutes ∧ tf.show_seconds then false
            else tf.show_decimals)
        else
          (tf.show_hours, tf.show_minutes,
            if tf.show_minutes ∧ tf.show_seconds then false
            else tf.show_decimals)
      | none => (tf.show_hours, tf.show_minutes, tf.show_decimals)
    else (tf.show_hours, tf.show_minutes, tf.show_decimals)
  build_pattern fl.1 fl.2.1 tf.show_seconds fl.2.2 tf.decimal_places
    tf.show_seconds tf.show_decimals

/-- `TimeFormat::get_pattern` (src/formatters/time.rs lines 33-39).
State passing is explicit: the result pairs the returned pattern with the
updated `TimeFormat`. -/
def get_pattern (tf : TimeFormat) (total_millis : Option Int) :
    List Char × TimeFormat :=
  let tf' :=
    if tf.dynamic ∨ tf.cached_pattern = none then
      { tf with cached_pattern := some (compute_pattern tf total_millis) }
    else tf
  (tf'.cached_pattern.getD [], tf')

/-! ### src/utils/time.rs — `format_time_span` and helpers -/

/-- Tokenization of the pattern into maximal runs of identical characters,
as performed by the peek loop of `format_time_span`
(src/utils/time.rs lines 50-61). Each token pairs the character with the
run length (`count`). -/
def tokenize : List Char → List (Char × Nat)
  | [] => []
  | c :: rest =>
    match tokenize rest with
    | [] => [(c, 1)]
    | (c', n) :: ts => if c = c' then (c, n + 1) :: ts else (c, 1) :: (c', n) :: ts

/-- `append_number` (src/utils/time.rs lines 83-97). The values passed are
the nonnegative hour/minute/second components, so the source's i64 is
modelled as `Nat` and the source's test `value <= 0` becomes `value = 0`.
First field emitted: natural width; after an earlier field: width 2. -/
def append_number (out : List Char) (value : Nat) (always_show : Bool) :
    List Char :=
  if value = 0 ∧ out = [] ∧ always_show = false then out
  else
    out ++ padZeros (if out = [] then (numChars value).length else 2) value

/-- Rust byte slicing base[..w], the only potential panic site of the
formatter: out of bounds is modelled as `none`. -/
def slice (l : List Char) (w : Nat) : Option (List Char) :=
  if w ≤ l.length then some (l.take w) else none

/-- `append_fraction` (src/utils/time.rs lines 105-114): zero-pad the
millisecond remainder to 3 digits, then cut (width up to 3) or pad with
zeros (width beyond 3). -/
def append_fraction (out : List Char) (millis : Nat) (width : Nat) :
    Option (List Char) :=
  let base := padZeros 3 millis
  if width ≤ 3 then (slice base width).map (fun t => out ++ t)
  else some (out ++ base ++ List.replicate (width - 3) '0')

/-- One arm of the `match ch` dispatch inside `format_time_span`
(src/utils/time.rs lines 63-77). In the literal arm the source pushes the
character `count` times, each push guarded by the output being non-empty;
an empty output stays empty through the whole run, so the arm appends
`count` copies exactly when the output is already non-empty. -/
def renderToken (hrs mins secs millis : Nat) (out : List Char) :
    Char × Nat → Option (List Char)
  | (c, count) =>
    if c = 'h' then some (append_number out hrs false)
    else if c = 'm' then some (append_number out mins false)
    else if c = 's' then some (append_number out secs true)
    else if c = 'd' then append_fraction out millis count
    else some (if out = [] then out else out ++ List.replicate count c)

/-- The token loop of `format_time_span`; a panic anywhere aborts the call
(`none`). -/
def renderTokens (hrs mins secs millis : Nat) :
    List Char → List (Char × Nat) → Option (List Char)
  | out, [] => some out
  | out, t :: ts =>
    match renderToken hrs mins secs millis out t with
    | some out' => renderTokens hrs mins secs millis out' ts
    | none => none

/-- `format_time_span` (src/utils/time.rs lines 37-81). The `TimeSpan`
argument is modelled by its total milliseconds; the source takes
`total_ms.abs() as i64` and decomposes it into hour/minute/second/millis
components. -/
def format_time_span (total_ms : Int) (pattern : List Char) :
    Option (List Char) :=
  let abs_ms := total_ms.natAbs
  renderTokens (abs_ms / 3600000) (abs_ms / 60000 % 60) (abs_ms / 1000 % 60)
    (abs_ms % 1000) [] (tokenize pattern)

end TuxSplit

namespace TuxSplit.Utils

/-! ### src/utils/utils.rs — the second, older copy of the formatter.

The bodies below are translated from src/utils/utils.rs lines 40-116
independently of the src/utils/time.rs copy. The source computes an unused
local `negative` (line 43); it has no observable effect and is omitted. -/

/-- Tokenization by maximal runs, from the peek loop of
src/utils/utils.rs lines 53-65. -/
def tokenize : List Char → List (Char × Nat)
  | [] => []
  | c :: rest =>
    match tokenize rest with
    | [] => [(c, 1)]
    | (c', n) :: ts => if c = c' then (c, n + 1) :: ts else (c, 1) :: (c', n) :: ts

/-- `append_number` (src/utils/utils.rs lines 87-100). -/
def append_number (out : List Char) (value : Nat) (always_show : Bool) :
    List Char :=
  if value = 0 ∧ out = [] ∧ always_show = false then out
  else
    out ++ padZeros (if out = [] then (numChars value).length else 2) value

/-- Rust byte slicing base[..w] of src/utils/utils.rs line 111. -/
def slice (l : List Char) (w : Nat) : Option (List Char) :=
  if w ≤ l.length then some (l.take w) else none

/-- `append_fraction` (src/utils/utils.rs lines 107-116). -/
def append_fraction (out : List Char) (millis : Nat) (width : Nat) :
    Option (List Char) :=
  let base := padZeros 3 millis
  if width ≤ 3 then (slice base width).map (fun t => out ++ t)
  else some (out ++ base ++ List.replicate (width - 3) '0')

/-- The `match ch` dispatch of src/utils/utils.rs lines 67-81 (the source
casts the already-`i64` components with `as i64`, a no-op). -/
def renderToken (hrs mins secs millis : Nat) (out : List Char) :
    Char × Nat → Option (List Char)
  | (c, count) =>
    if c = 'h' then some (append_number out hrs false)
    else if c = 'm' then some (append_number out mins false)
    else if c = 's' then some (append_number out secs true)
    else if c = 'd' then append_fraction out millis count
    else some (if out = [] then out else out ++ List.replicate count c)

/-- The token loop of src/utils/utils.rs `format_time_span`. -/
def renderTokens (hrs mins secs millis : Nat) :
    List Char → List (Char × Nat) → Option (List Char)
  | out, [] => some out
  | out, t :: ts =>
    match renderToken hrs mins secs millis out t with
    | some out' => renderTokens hrs mins secs millis out' ts
    | none => none

/-- `format_time_span` (src/utils/utils.rs lines 40-85). -/
def format_time_span (total_ms : Int) (pattern : List Char) :
    Option (List Char) :=
  let abs_ms := total_ms.natAbs
  renderTokens (abs_ms / 3600000) (abs_ms / 60000 % 60) (abs_ms / 1000 % 60)
    (abs_ms % 1000) [] (tokenize pattern)

end TuxSplit.Utils

namespace TuxSplit

/-! ### src/ui/ui.rs — `calculate_split_label_classes` -/

/-- `TimerUI::calculate_split_label_classes` (src/ui/ui.rs lines 453-492).
Durations are modelled by their total values as `Int` (comparison,
`is_negative`, `is_positive` and the zero constant are order/sign
operations). The unused `timer` parameter is omitted. Control flow is
mirrored exactly: the branch for a non-zero gold with `split < gold`
pushes "goldsplit" and falls through to the diff classification; only the
zero-gold branch returns early. -/
def calculate_split_label_classes (comparison_duration split_duration diff
    goldsplit_duration : Int) (running : Bool) : List String :=
  let color_classes : List String :=
    if diff < 0 then
      if split_duration ≤ comparison_duration then ["greensplit"]
      else ["lostgreensplit"]
    else if 0 < diff then
      if split_duration ≤ comparison_duration then ["gainedredsplit"]
      else ["redsplit"]
    else []
  if running = false ∧ goldsplit_duration ≠ 0 ∧
      split_duration < goldsplit_duration then
    "goldsplit" :: color_classes
  else if running = false ∧ goldsplit_duration = 0 then
    ["goldsplit"]
  else color_classes

/-! ### Duration subtraction (src/ui/ui.rs lines 224-227,
src/ui/info/mod.rs lines 65-68) -/

/-- Least representable total-nanosecond value of a `time::Duration`
(seconds stored as i64, nanoseconds as a matching-sign i32 below one
second). -/
def DUR_MIN_NS : Int := -(2 ^ 63) * 1000000000 - 999999999

/-- Greatest representable total-nanosecond value of a `time::Duration`. -/
def DUR_MAX_NS : Int := (2 ^ 63 - 1) * 1000000000 + 999999999

/-- `time::Duration::checked_sub`: the exact signed difference, `none`
exactly when the result leaves the representable range. -/
def checked_sub (a b : Int) : Option Int :=
  if DUR_MIN_NS ≤ a - b ∧ a - b ≤ DUR_MAX_NS then some (a - b) else none

/-- The `segment_comparison_duration` computation, identical in
src/ui/ui.rs lines 224-227 and src/ui/info/mod.rs lines 65-68:
`checked_sub(...).unwrap_or_default().abs()`. -/
def segment_comparison_duration (segment_comparison
    previous_comparison_duration : Int) : Int :=
  |(checked_sub segment_comparison previous_comparison_duration).getD 0|

/-- The signed diff of `PrevSegmentDiffInfo::update`
(src/ui/info/mod.rs lines 75-79):
`split_time.checked_sub(prev).unwrap_or_default().checked_sub(seg_comp_dur).unwrap_or_default()`. -/
def prev_segment_diff (split_time previous_split_time
    seg_comp_dur : Int) : Int :=
  (checked_sub ((checked_sub split_time previous_split_time).getD 0)
    seg_comp_dur).getD 0

/-! ### Concrete format specs used as test inputs -/

/-- A fully enabled dynamic format spec (all components visible, two
decimal places, dynamic mode, empty cache). -/
def tfDynamicFull : TimeFormat :=
  { show_hours := true, show_minutes := true, show_seconds := true,
    show_decimals := true, decimal_places := 2, dynamic := true,
    cached_pattern := none }

/-- A spec with every clock field hidden but decimals visible. -/
def tfDecimalsOnly : TimeFormat :=
  { show_hours := false, show_minutes := false, show_seconds := false,
    show_decimals := true, decimal_places := 2, dynamic := false,
    cached_pattern := none }

/-! ### Theorems -/

/-! ### Supporting lemmas about the renderer -/

theorem tokenize_replicate (n : Nat) (c : Char) :
    tokenize (List.replicate n c) = if n = 0 then [] else [(c, n)] := by
  induction n with
  | zero => simp [tokenize]
  | succ k ih =>
    simp only [List.replicate_succ, tokenize, ih]
    cases k <;> simp

theorem renderToken_isSome (hrs mins secs millis : Nat) (out : List Char)
    (t : Char × Nat) : (renderToken hrs mins secs millis out t).isSome := by
  obtain ⟨c, k⟩ := t
  have hred : renderToken hrs mins secs millis out (c, k)
      = if c = 'h' then some (append_number out hrs false)
        else if c = 'm' then some (append_number out mins false)
        else if c = 's' then some (append_number out secs true)
        else if c = 'd' then append_fraction out millis k
        else some (if out = [] then out else out ++ List.replicate k c) := rfl
  rw [hred]
  by_cases h1 : c = 'h'
  · simp [h1]
  rw [if_neg h1]
  by_cases h2 : c = 'm'
  · simp [h2]
  rw [if_neg h2]
  by_cases h3 : c = 's'
  · simp [h3]
  rw [if_neg h3]
  by_cases h4 : c = 'd'
  · rw [if_pos h4]
    unfold append_fraction slice
    have hp : (3 : Nat) ≤ (padZeros 3 millis).length := padZeros_length 3 millis
    by_cases hw : k ≤ 3
    · rw [if_pos hw, if_pos (le_trans hw hp)]
      simp
    · rw [if_neg hw]
      simp
  · rw [if_neg h4]
    simp

theorem renderTokens_isSome (hrs mins secs millis : Nat)
    (ts : List (Char × Nat)) (out : List Char) :
    (renderTokens hrs mins secs millis out ts).isSome := by
  induction ts generalizing out with
  | nil => simp [renderTokens]
  | cons t ts ih =>
    obtain ⟨o, ho⟩ := Option.isSome_iff_exists.mp
      (renderToken_isSome hrs mins secs millis out t)
    simp [renderTokens, ho, ih]

theorem append_number_first (value : Nat) :
    append_number [] value true = numChars value := by
  simp [append_number, padZeros_natural]

theorem append_number_ne_nil (out : List Char) (value : Nat) :
    append_number out value true ≠ [] := by
  unfold append_number
  rw [if_neg (by simp)]
  intro hx
  rcases List.append_eq_nil.mp hx with ⟨-, h2⟩
  unfold padZeros at h2
  rcases List.append_eq_nil.mp h2 with ⟨-, h3⟩
  exact numChars_ne_nil value h3

theorem renderToken_s (hrs mins secs millis : Nat) (out : List Char)
    (k : Nat) :
    renderToken hrs mins secs millis out ('s', k)
      = some (append_number out secs true) := rfl

theorem renderToken_dot (hrs mins secs millis : Nat) (out : List Char)
    (k : Nat) :
    renderToken hrs mins secs millis out ('.', k)
      = some (if out = [] then out else out ++ List.replicate k '.') := rfl

theorem renderToken_d (hrs mins secs millis : Nat) (out : List Char)
    (k : Nat) :
    renderToken hrs mins secs millis out ('d', k)
      = append_fraction out millis k := rfl

theorem append_fraction_eq (out : List Char) (millis width : Nat) :
    append_fraction out millis width
      = some (out ++ (if width ≤ 3 then (padZeros 3 millis).take width
          else padZeros 3 millis ++ List.replicate (width - 3) '0')) := by
  unfold append_fraction slice
  by_cases hw : width ≤ 3
  · rw [if_pos hw, if_pos (le_trans hw (padZeros_length 3 millis))]
    simp [hw]
  · rw [if_neg hw]
    simp [hw]

theorem tokenize_cons (c : Char) (rest : List Char) :
    tokenize (c :: rest)
      = match tokenize rest with
        | [] => [(c, 1)]
        | (c', n) :: ts => if c = c' then (c, n + 1) :: ts
            else (c, 1) :: (c', n) :: ts := rfl

theorem tokenize_sdN (N : Nat) :
    tokenize ('s' :: '.' :: List.replicate N 'd')
      = if N = 0 then [('s', 1), ('.', 1)]
        else [('s', 1), ('.', 1), ('d', N)] := by
  cases N with
  | zero => simp [tokenize]
  | succ k =>
    have h := tokenize_replicate (k + 1) 'd'
    rw [if_neg (by omega)] at h
    rw [tokenize_cons, tokenize_cons, h]
    simp

theorem renderTokens_nil (hrs mins secs millis : Nat) (out : List Char) :
    renderTokens hrs mins secs millis out [] = some out := rfl

theorem renderTokens_cons (hrs mins secs millis : Nat) (out : List Char)
    (t : Char × Nat) (ts : List (Char × Nat)) :
    renderTokens hrs mins secs millis out (t :: ts)
      = match renderToken hrs mins secs millis out t with
        | some o => renderTokens hrs mins secs millis o ts
        | none => none := rfl

theorem renderTokens_some {hrs mins secs millis : Nat} {out o : List Char}
    {t : Char × Nat} (ts : List (Char × Nat))
    (h : renderToken hrs mins secs millis out t = some o) :
    renderTokens hrs mins secs millis out (t :: ts)
      = renderTokens hrs mins secs millis o ts := by
  rw [renderTokens_cons, h]

theorem renderTokens_sdN (hrs mins secs millis : Nat) (N : Nat) :
    renderTokens hrs mins secs millis []
        (if N = 0 then [('s', 1), ('.', 1)] else [('s', 1), ('.', 1), ('d', N)])
      = some (numChars secs ++ '.' ::
          (if N ≤ 3 then (padZeros 3 millis).take N
           else padZeros 3 millis ++ List.replicate (N - 3) '0')) := by
  have s1 : renderToken hrs mins secs millis [] ('s', 1)
      = some (numChars secs) := by
    rw [renderToken_s, append_number_first]
  have s2 : renderToken hrs mins secs millis (numChars secs) ('.', 1)
      = some (numChars secs ++ ['.']) := by
    rw [renderToken_dot, if_neg (numChars_ne_nil secs)]
    simp
  by_cases hN : N = 0
  · subst hN
    rw [if_pos rfl, renderTokens_some _ s1, renderTokens_some _ s2,
      renderTokens_nil]
    simp
  · have s3 : renderToken hrs mins secs millis (numChars secs ++ ['.'])
        ('d', N)
        = some ((numChars secs ++ ['.'])
            ++ (if N ≤ 3 then (padZeros 3 millis).take N
                else padZeros 3 millis ++ List.replicate (N - 3) '0')) := by
      rw [renderToken_d, append_fraction_eq]
    rw [if_neg hN, renderTokens_some _ s1, renderTokens_some _ s2,
      renderTokens_some _ s3, renderTokens_nil]
    simp

theorem renderToken_h (hrs mins secs millis : Nat) (out : List Char)
    (k : Nat) :
    renderToken hrs mins secs millis out ('h', k)
      = some (append_number out hrs false) := rfl

theorem renderToken_m (hrs mins secs millis : Nat) (out : List Char)
    (k : Nat) :
    renderToken hrs mins secs millis out ('m', k)
      = some (append_number out mins false) := rfl

theorem renderToken_colon (hrs mins secs millis : Nat) (out : List Char)
    (k : Nat) :
    renderToken hrs mins secs millis out (':', k)
      = some (if out = [] then out else out ++ List.replicate k ':') := rfl

theorem append_number_first_opt (value : Nat) :
    append_number [] value false
      = if value = 0 then [] else numChars value := by
  by_cases hv : value = 0
  · rw [if_pos hv]
    unfold append_number
    rw [if_pos ⟨hv, rfl, rfl⟩]
  · rw [if_neg hv]
    unfold append_number
    rw [if_neg (fun hc => hv hc.1)]
    simp [padZeros_natural]

theorem append_number_after (out : List Char) (value : Nat)
    (always_show : Bool) (h : out ≠ []) :
    append_number out value always_show = out ++ padZeros 2 value := by
  unfold append_number
  rw [if_neg (fun hc => h hc.2.1), if_neg h]

theorem renderTokens_ms_tokens (hrs mins secs millis km ks : Nat) :
    renderTokens hrs mins secs millis [] [('m', km), (':', 1), ('s', ks)]
      = some (if mins = 0 then numChars secs
              else numChars mins ++ ':' :: padZeros 2 secs) := by
  by_cases hm : mins = 0
  · have s1 : renderToken hrs mins secs millis [] ('m', km)
        = some [] := by
      rw [renderToken_m, append_number_first_opt, if_pos hm]
    have s2 : renderToken hrs mins secs millis [] (':', 1)
        = some ([] : List Char) := by
      rw [renderToken_colon, if_pos rfl]
    have s3 : renderToken hrs mins secs millis [] ('s', ks)
        = some (numChars secs) := by
      rw [renderToken_s, append_number_first]
    rw [renderTokens_some _ s1, renderTokens_some _ s2,
      renderTokens_some _ s3, renderTokens_nil, if_pos hm]
  · have s1 : renderToken hrs mins secs millis [] ('m', km)
        = some (numChars mins) := by
      rw [renderToken_m, append_number_first_opt, if_neg hm]
    have s2 : renderToken hrs mins secs millis (numChars mins) (':', 1)
        = some (numChars mins ++ [':']) := by
      rw [renderToken_colon, if_neg (numChars_ne_nil mins)]
      simp
    have s3 : renderToken hrs mins secs millis (numChars mins ++ [':'])
        ('s', ks)
        = some ((numChars mins ++ [':']) ++ padZeros 2 secs) := by
      rw [renderToken_s, append_number_after _ _ _ (by simp)]
    rw [renderTokens_some _ s1, renderTokens_some _ s2,
      renderTokens_some _ s3, renderTokens_nil, if_neg hm]
    simp

theorem renderTokens_hms_tokens (hrs mins secs millis kh km ks : Nat) :
    renderTokens hrs mins secs millis []
        [('h', kh), (':', 1), ('m', km), (':', 1), ('s', ks)]
      = some (if hrs = 0 then
            (if mins = 0 then numChars secs
             else numChars mins ++ ':' :: padZeros 2 secs)
          else numChars hrs ++ ':' ::
            (padZeros 2 mins ++ ':' :: padZeros 2 secs)) := by
  by_cases hh : hrs = 0
  · have s1 : renderToken hrs mins secs millis [] ('h', kh)
        = some [] := by
      rw [renderToken_h, append_number_first_opt, if_pos hh]
    have s2 : renderToken hrs mins secs millis [] (':', 1)
        = some ([] : List Char) := by
      rw [renderToken_colon, if_pos rfl]
    rw [renderTokens_some _ s1, renderTokens_some _ s2,
      renderTokens_ms_tokens, if_pos hh]
  · have s1 : renderToken hrs mins secs millis [] ('h', kh)
        = some (numChars hrs) := by
      rw [renderToken_h, append_number_first_opt, if_neg hh]
    have s2 : renderToken hrs mins secs millis (numChars hrs) (':', 1)
        = some (numChars hrs ++ [':']) := by
      rw [renderToken_colon, if_neg (numChars_ne_nil hrs)]
      simp
    have s3 : renderToken hrs mins secs millis (numChars hrs ++ [':'])
        ('m', km)
        = some ((numChars hrs ++ [':']) ++ padZeros 2 mins) := by
      rw [renderToken_m, append_number_after _ _ _ (by simp)]
    have s4 : renderToken hrs mins secs millis
        ((numChars hrs ++ [':']) ++ padZeros 2 mins) (':', 1)
        = some (((numChars hrs ++ [':']) ++ padZeros 2 mins) ++ [':']) := by
      rw [renderToken_colon, if_neg (by simp)]
      simp
    have s5 : renderToken hrs mins secs millis
        (((numChars hrs ++ [':']) ++ padZeros 2 mins) ++ [':']) ('s', ks)
        = some ((((numChars hrs ++ [':']) ++ padZeros 2 mins) ++ [':'])
            ++ padZeros 2 secs) := by
      rw [renderToken_s, append_number_after _ _ _ (by simp)]
    rw [renderTokens_some _ s1, renderTokens_some _ s2,
      renderTokens_some _ s3, renderTokens_some _ s4,
      renderTokens_some _ s5, renderTokens_nil, if_neg hh]
    simp

theorem renderToken_lit {c : Char} (hrs mins secs millis : Nat)
    (out : List Char) (k : Nat) (h1 : c ≠ 'h') (h2 : c ≠ 'm')
    (h3 : c ≠ 's') (h4 : c ≠ 'd') :
    renderToken hrs mins secs millis out (c, k)
      = some (if out = [] then out else out ++ List.replicate k c) := by
  have hred : renderToken hrs mins secs millis out (c, k)
      = if c = 'h' then some (append_number out hrs false)
        else if c = 'm' then some (append_number out mins false)
        else if c = 's' then some (append_number out secs true)
        else if c = 'd' then append_fraction out millis k
        else some (if out = [] then out else out ++ List.replicate k c) :=
    rfl
  rw [hred, if_neg h1, if_neg h2, if_neg h3, if_neg h4]

/-- Claim C1 counterexample: with comparison 10000, split 5000, diff -1000,
gold 8000, not running, the classifier returns two tags
(gold followed by ahead-gaining), not the single tag gold: the non-zero
gold branch does not stop the classification. -/
theorem c1_counterexample :
    calculate_split_label_classes 10000 5000 (-1000) 8000 false
      = ["goldsplit", "greensplit"] ∧
    (["goldsplit", "greensplit"] : List String).length ≠ 1 := by
  decide

/-- Claim C1 (amended): the classifier tags gold exactly when not running
and (gold duration is zero or split duration is below it); the zero-gold
case returns early with the single tag gold, while the below-gold case
appends the diff-based tag after gold: diff negative gives ahead-gaining
(greensplit) when split is at most comparison, ahead-losing
(lostgreensplit) otherwise; diff positive gives behind-gaining
(gainedredsplit) when split is at most comparison, behind-losing
(redsplit) otherwise; diff zero contributes no tag. -/
theorem c1_amended (comparison_duration split_duration diff
    goldsplit_duration : Int) (running : Bool) :
    calculate_split_label_classes comparison_duration split_duration diff
        goldsplit_duration running
      = (if running = false ∧
            (goldsplit_duration = 0 ∨ split_duration < goldsplit_duration)
          then ["goldsplit"] else [])
        ++ (if running = false ∧ goldsplit_duration = 0 then []
            else if diff < 0 then
              if split_duration ≤ comparison_duration then ["greensplit"]
              else ["lostgreensplit"]
            else if 0 < diff then
              if split_duration ≤ comparison_duration then ["gainedredsplit"]
              else ["redsplit"]
            else []) := by
  unfold calculate_split_label_classes
  cases running <;>
    by_cases hg : goldsplit_duration = 0 <;>
    by_cases hs : split_duration < goldsplit_duration <;>
    simp [hg, hs]

/-- Claim C3 counterexample: a call on a dynamic spec does not leave
`cached_pattern` unchanged; starting from an empty cache it stores the
freshly computed pattern. -/
theorem c3_counterexample :
    ((get_pattern tfDynamicFull (some 500)).2.cached_pattern
      = some ("s.dd".data)) ∧
    tfDynamicFull.cached_pattern = none ∧
    some ("s.dd".data) ≠ (none : Option (List Char)) := by
  decide

/-- Claim C3 (amended): `get_pattern` writes `cached_pattern` on every call
with `dynamic` true or an empty cache, storing exactly the freshly computed
pattern (which is also the returned value); only a non-dynamic call with a
populated cache leaves the spec unchanged and returns the cached value. -/
theorem c3_amended (tf : TimeFormat) (ms : Option Int) :
    (tf.dynamic = true ∨ tf.cached_pattern = none →
      (get_pattern tf ms).2.cached_pattern = some (compute_pattern tf ms) ∧
      (get_pattern tf ms).1 = compute_pattern tf ms) ∧
    (tf.dynamic = false → tf.cached_pattern ≠ none →
      (get_pattern tf ms).2 = tf ∧
      (get_pattern tf ms).1 = tf.cached_pattern.getD []) := by
  constructor
  · intro h
    have hc : (tf.dynamic ∨ tf.cached_pattern = none) := by
      rcases h with h | h
      · exact Or.inl (by simp [h])
      · exact Or.inr h
    simp [get_pattern, if_pos hc]
  · intro h1 h2
    have hc : ¬(tf.dynamic ∨ tf.cached_pattern = none) := by
      simp [h1, h2]
    simp [get_pattern, if_neg hc]

/-- Claim C3 amended witness: the dynamic spec with an empty cache at
millis 500 gets its cache overwritten with the computed pattern. -/
theorem c3_amended_witness :
    ((get_pattern tfDynamicFull (some 500)).2.cached_pattern
      = some (compute_pattern tfDynamicFull (some 500))) ∧
    ((get_pattern tfDynamicFull (some 500)).1
      = compute_pattern tfDynamicFull (some 500)) :=
  (c3_amended tfDynamicFull (some 500)).1 (Or.inl rfl)

/-- Claim C4 counterexample: subtracting the larger baseline 3000 from 1000
yields 2000 (the absolute difference, via `.abs()`), not zero. -/
theorem c4_counterexample :
    (1000 : Int) < 3000 ∧
    segment_comparison_duration 1000 3000 = 2000 ∧
    (2000 : Int) ≠ 0 := by
  decide

/-- Claim C4 (amended): the baseline subtraction
`checked_sub(..).unwrap_or_default().abs()` yields the absolute difference
of the two durations whenever the subtraction stays in the representable
range of the duration type (so a smaller minus a larger baseline gives
their positive distance, not zero); it saturates to zero only when the
subtraction overflows that range. The signed diff used for classification
is computed separately, without `.abs()`, and equals the plain signed
difference (which may be negative) when in range. -/
theorem c4_amended (a b s p c : Int) :
    (DUR_MIN_NS ≤ a - b → a - b ≤ DUR_MAX_NS →
      segment_comparison_duration a b = |a - b|) ∧
    (a - b < DUR_MIN_NS ∨ DUR_MAX_NS < a - b →
      segment_comparison_duration a b = 0) ∧
    (DUR_MIN_NS ≤ s - p → s - p ≤ DUR_MAX_NS →
      DUR_MIN_NS ≤ s - p - c → s - p - c ≤ DUR_MAX_NS →
      prev_segment_diff s p c = s - p - c) := by
  refine ⟨?_, ?_, ?_⟩
  · intro h1 h2
    unfold segment_comparison_duration checked_sub
    rw [if_pos (And.intro h1 h2)]
    simp
  · intro h
    have hc : ¬(DUR_MIN_NS ≤ a - b ∧ a - b ≤ DUR_MAX_NS) := by
      rcases h with h | h <;> intro hx <;> omega
    unfold segment_comparison_duration checked_sub
    rw [if_neg hc]
    simp
  · intro h1 h2 h3 h4
    unfold prev_segment_diff checked_sub
    rw [if_pos (And.intro h1 h2)]
    simp only [Option.getD_some]
    rw [if_pos (And.intro h3 h4)]
    simp

/-- When the configured-seconds argument read by the fallback agrees with
the effective seconds flag, the configured-decimals argument read by the
fallback is irrelevant: with seconds visible the built pattern is non-empty
and the fallback never runs, and with seconds hidden the fallback takes its
seconds-off branch. -/
theorem build_pattern_cfg_sd (sh sm ss sd : Bool) (dp : Nat) (cd cd' : Bool) :
    build_pattern sh sm ss sd dp ss cd = build_pattern sh sm ss sd dp ss cd' := by
  cases ss <;> cases sh <;> cases sm <;> cases sd <;> cases dp <;>
    simp [build_pattern, push_sep]

/-- Claim C2 counterexample: the dynamic resolver buckets by the signed
value, not the absolute magnitude: at -3,700,000 ms (more than an hour in
magnitude) the fully enabled dynamic spec resolves to the under-a-minute
pattern, while at +3,700,000 ms it resolves to the hour pattern. -/
theorem c2_counterexample :
    compute_pattern tfDynamicFull (some (-3700000)) = "s.dd".data ∧
    compute_pattern tfDynamicFull (some 3700000) = "h:m:s".data ∧
    "s.dd".data ≠ "h:m:s".data := by
  decide

/-- Claim C2 (amended): for a dynamic spec with a provided total, the
resolver buckets by the signed millisecond value: every ms below 60,000
(including all negative values) forces hours and minutes hidden with
seconds/decimals as configured; 60,000 up to 3,600,000 forces hours hidden
and suppresses decimals when both minutes and seconds are configured
visible; at or above 3,600,000 hours are kept with the same
decimal-suppression rule. Each bucket behaves as the corresponding
non-dynamic spec. The bucket of a negative ms is the under-a-minute one,
not the bucket of its absolute value. -/
theorem c2_amended (tf : TimeFormat) (ms : Int) (hdyn : tf.dynamic = true) :
    (ms < 60000 →
      compute_pattern tf (some ms)
        = compute_pattern
            { tf with show_hours := false, show_minutes := false,
                      dynamic := false } none) ∧
    (60000 ≤ ms → ms < 3600000 →
      compute_pattern tf (some ms)
        = compute_pattern
            { tf with show_hours := false,
                      show_decimals := if tf.show_minutes ∧ tf.show_seconds
                        then false else tf.show_decimals,
                      dynamic := false } none) ∧
    (3600000 ≤ ms →
      compute_pattern tf (some ms)
        = compute_pattern
            { tf with show_decimals := if tf.show_minutes ∧ tf.show_seconds
                        then false else tf.show_decimals,
                      dynamic := false } none) := by
  refine ⟨?_, ?_, ?_⟩
  · intro h1
    simp only [compute_pattern, hdyn, if_pos h1]
    simp
  · intro h1 h2
    have hn1 : ¬ms < 60000 := by omega
    simp only [compute_pattern, hdyn, if_neg hn1, if_pos h2]
    simp only [if_true, Bool.false_eq_true, if_false]
    exact build_pattern_cfg_sd _ _ _ _ _ _ _
  · intro h1
    have hn1 : ¬ms < 60000 := by omega
    have hn2 : ¬ms < 3600000 := by omega
    simp only [compute_pattern, hdyn, if_neg hn1, if_neg hn2]
    simp only [if_true, Bool.false_eq_true, if_false]
    exact build_pattern_cfg_sd _ _ _ _ _ _ _

/-- Claim C2 amended witness: the fully enabled dynamic spec at
-3,700,000 ms resolves like the non-dynamic spec with hours and minutes
hidden. -/
theorem c2_amended_witness :
    (-3700000 : Int) < 60000 ∧
    compute_pattern tfDynamicFull (some (-3700000))
      = compute_pattern
          { tfDynamicFull with show_hours := false, show_minutes := false,
                               dynamic := false } none :=
  ⟨by decide, (c2_amended tfDynamicFull (-3700000) rfl).1 (by decide)⟩

/-- Claim C5 counterexample: with hours, minutes and seconds all hidden but
decimals visible, the resolved pattern is ".dd", which begins with the
separator character '.'. -/
theorem c5_counterexample :
    compute_pattern tfDecimalsOnly none = ".dd".data ∧
    (".dd".data).head? = some '.' := by
  decide

/-- Claim C5 (amended): for every spec and total the resolved pattern is a
non-empty string that never begins with ':' (the ':' separator is emitted
only after a preceding field, and the fallback emits at least the token
's'); it can, however, begin with '.' when every clock field is hidden
while decimals are visible with a positive decimal_places. -/
theorem c5_amended (tf : TimeFormat) (ms : Option Int) :
    compute_pattern tf ms ≠ [] ∧
    (compute_pattern tf ms).head? ≠ some ':' := by
  have key : ∀ (sh sm ss sd : Bool) (dp : Nat) (cs cd : Bool),
      build_pattern sh sm ss sd dp cs cd ≠ [] ∧
      (build_pattern sh sm ss sd dp cs cd).head? ≠ some ':' := by
    intro sh sm ss sd dp cs cd
    cases sh <;> cases sm <;> cases ss <;> cases sd <;> cases cs <;>
      cases cd <;> cases dp <;> simp [build_pattern, push_sep]
  unfold compute_pattern
  exact key _ _ _ _ _ _ _

/-- Claim C8: for a non-dynamic spec, resolution is idempotent: the first
call leaves the returned pattern in the cache (computing it when the cache
was empty), and a second call with any total returns the identical pattern
and state untouched. -/
theorem c8_nondynamic_idempotent (tf : TimeFormat) (ms1 ms2 : Option Int)
    (hdyn : tf.dynamic = false) :
    (get_pattern tf ms1).2.cached_pattern = some ((get_pattern tf ms1).1) ∧
    get_pattern ((get_pattern tf ms1).2) ms2
      = (((get_pattern tf ms1).1), ((get_pattern tf ms1).2)) ∧
    (tf.cached_pattern = none →
      (get_pattern tf ms1).1 = compute_pattern tf ms1) := by
  cases hcp : tf.cached_pattern <;>
    simp [get_pattern, hdyn, hcp]

/-- Claim C8 witness: the default (non-dynamic) spec resolved twice with
different totals. -/
theorem c8_witness :
    ((get_pattern TimeFormat.default (some 500)).2.cached_pattern
      = some ((get_pattern TimeFormat.default (some 500)).1)) ∧
    (get_pattern ((get_pattern TimeFormat.default (some 500)).2)
        (some 99999999)
      = (((get_pattern TimeFormat.default (some 500)).1),
         ((get_pattern TimeFormat.default (some 500)).2))) ∧
    (TimeFormat.default.cached_pattern = none →
      (get_pattern TimeFormat.default (some 500)).1
        = compute_pattern TimeFormat.default (some 500)) :=
  c8_nondynamic_idempotent TimeFormat.default (some 500) (some 99999999) rfl

/-- Claim C4 amended witness: at 1000 minus 3000 the result is the absolute
difference 2000, and the separately computed diff 1000 - 0 - 2000 is the
negative value -1000. -/
theorem c4_amended_witness :
    segment_comparison_duration 1000 3000 = |(1000 : Int) - 3000| ∧
    prev_segment_diff 1000 0 2000 = 1000 - 0 - 2000 :=
  ⟨(c4_amended 1000 3000 1000 0 2000).1 (by decide) (by decide),
   (c4_amended 1000 3000 1000 0 2000).2.2 (by decide) (by decide)
     (by decide) (by decide)⟩

/-- Claim C6: the decimals field truncates and never rounds: for every
duration and every run of N 'd' tokens following "s.", the fraction drawn
is the millisecond remainder zero-padded to 3 digits, cut to its first N
characters when N is at most 3 and extended by N-3 zeros otherwise; in
particular 3145 ms renders "3.145" under "s.ddd" and "3.1" under "s.d". -/
theorem c6_truncating_fraction (ms : Int) (N : Nat) :
    (format_time_span ms ('s' :: '.' :: List.replicate N 'd')
      = some (numChars (ms.natAbs / 1000 % 60) ++ '.' ::
          (if N ≤ 3 then (padZeros 3 (ms.natAbs % 1000)).take N
           else padZeros 3 (ms.natAbs % 1000)
             ++ List.replicate (N - 3) '0'))) ∧
    format_time_span 3145 ("s.ddd".data) = some ("3.145".data) ∧
    format_time_span 3145 ("s.d".data) = some ("3.1".data) := by
  refine ⟨?_, by decide, by decide⟩
  calc format_time_span ms ('s' :: '.' :: List.replicate N 'd')
      = renderTokens (ms.natAbs / 3600000) (ms.natAbs / 60000 % 60)
          (ms.natAbs / 1000 % 60) (ms.natAbs % 1000) []
          (tokenize ('s' :: '.' :: List.replicate N 'd')) := rfl
    _ = _ := by
          rw [tokenize_sdN]
          exact renderTokens_sdN _ _ _ _ N

/-- Claim C7: zero-valued leading hour/minute fields are suppressed
entirely and padding depends on position: under "h:m:s", zero hours are
omitted (falling back to the "m:s" behavior, where zero minutes are in
turn omitted); the first emitted field keeps its natural width while every
later field is zero-padded to width 2; the run length of an h/m/s token
does not change the output ("mm:ss" renders like "m:s"); 125340 ms renders
"2:05" under both "m:s" and "h:m:s". -/
theorem c7_leading_suppression_padding (ms : Int) :
    (format_time_span ms ("h:m:s".data)
      = some (if ms.natAbs / 3600000 = 0 then
            (if ms.natAbs / 60000 % 60 = 0 then
              numChars (ms.natAbs / 1000 % 60)
             else numChars (ms.natAbs / 60000 % 60) ++ ':' ::
               padZeros 2 (ms.natAbs / 1000 % 60))
          else numChars (ms.natAbs / 3600000) ++ ':' ::
            (padZeros 2 (ms.natAbs / 60000 % 60) ++ ':' ::
              padZeros 2 (ms.natAbs / 1000 % 60)))) ∧
    (format_time_span ms ("m:s".data)
      = some (if ms.natAbs / 60000 % 60 = 0 then
            numChars (ms.natAbs / 1000 % 60)
          else numChars (ms.natAbs / 60000 % 60) ++ ':' ::
            padZeros 2 (ms.natAbs / 1000 % 60))) ∧
    format_time_span ms ("mm:ss".data) = format_time_span ms ("m:s".data) ∧
    format_time_span 125340 ("m:s".data) = some ("2:05".data) ∧
    format_time_span 125340 ("h:m:s".data) = some ("2:05".data) := by
  refine ⟨?_, ?_, ?_, by decide, by decide⟩
  · calc format_time_span ms ("h:m:s".data)
        = renderTokens (ms.natAbs / 3600000) (ms.natAbs / 60000 % 60)
            (ms.natAbs / 1000 % 60) (ms.natAbs % 1000) []
            (tokenize ("h:m:s".data)) := rfl
      _ = _ := by
            rw [show tokenize ("h:m:s".data)
                = [('h', 1), (':', 1), ('m', 1), (':', 1), ('s', 1)]
              from by decide]
            exact renderTokens_hms_tokens _ _ _ _ 1 1 1
  · calc format_time_span ms ("m:s".data)
        = renderTokens (ms.natAbs / 3600000) (ms.natAbs / 60000 % 60)
            (ms.natAbs / 1000 % 60) (ms.natAbs % 1000) []
            (tokenize ("m:s".data)) := rfl
      _ = _ := by
            rw [show tokenize ("m:s".data) = [('m', 1), (':', 1), ('s', 1)]
              from by decide]
            exact renderTokens_ms_tokens _ _ _ _ 1 1
  · have h1 : format_time_span ms ("mm:ss".data)
        = renderTokens (ms.natAbs / 3600000) (ms.natAbs / 60000 % 60)
            (ms.natAbs / 1000 % 60) (ms.natAbs % 1000) []
            (tokenize ("mm:ss".data)) := rfl
    have h2 : format_time_span ms ("m:s".data)
        = renderTokens (ms.natAbs / 3600000) (ms.natAbs / 60000 % 60)
            (ms.natAbs / 1000 % 60) (ms.natAbs % 1000) []
            (tokenize ("m:s".data)) := rfl
    rw [h1, h2,
      show tokenize ("mm:ss".data) = [('m', 2), (':', 1), ('s', 2)]
        from by decide,
      show tokenize ("m:s".data) = [('m', 1), (':', 1), ('s', 1)]
        from by decide,
      renderTokens_ms_tokens, renderTokens_ms_tokens]

/-- Claim C9: the renderer is total: every duration/pattern pair produces a
string (the modelled panic site never fires), any character outside
h, m, s, d degrades to a literal emitted run-length times only when output
already precedes it (a pattern of only unknown characters renders empty),
and runs of more than 3 'd' tokens are handled by zero-extension. -/
theorem c9_total_literal_passthrough :
    (∀ (ms : Int) (p : List Char), ∃ out, format_time_span ms p = some out) ∧
    (∀ (ms : Int) (c : Char) (k : Nat),
      c ≠ 'h' → c ≠ 'm' → c ≠ 's' → c ≠ 'd' →
      format_time_span ms ('s' :: List.replicate (k + 1) c)
        = some (numChars (ms.natAbs / 1000 % 60)
            ++ List.replicate (k + 1) c) ∧
      format_time_span ms (List.replicate (k + 1) c) = some []) ∧
    format_time_span 3145 ("s.ddddd".data) = some ("3.14500".data) := by
  refine ⟨?_, ?_, by decide⟩
  · intro ms p
    exact Option.isSome_iff_exists.mp
      (renderTokens_isSome (ms.natAbs / 3600000) (ms.natAbs / 60000 % 60)
        (ms.natAbs / 1000 % 60) (ms.natAbs % 1000) (tokenize p) [])
  · intro ms c k h1 h2 h3 h4
    have ht : tokenize (List.replicate (k + 1) c) = [(c, k + 1)] := by
      rw [tokenize_replicate, if_neg (by omega)]
    constructor
    · have htok : tokenize ('s' :: List.replicate (k + 1) c)
          = [('s', 1), (c, k + 1)] := by
        rw [tokenize_cons, ht]
        rw [show (match [(c, k + 1)] with
          | [] => [('s', 1)]
          | (c', n) :: ts => if 's' = c' then ('s', n + 1) :: ts
              else ('s', 1) :: (c', n) :: ts)
          = if 's' = c then ('s', k + 1 + 1) :: []
            else ('s', 1) :: (c, k + 1) :: [] from rfl]
        rw [if_neg (Ne.symm h3)]
      have s1 : renderToken (ms.natAbs / 3600000) (ms.natAbs / 60000 % 60)
          (ms.natAbs / 1000 % 60) (ms.natAbs % 1000) [] ('s', 1)
          = some (numChars (ms.natAbs / 1000 % 60)) := by
        rw [renderToken_s, append_number_first]
      have s2 : renderToken (ms.natAbs / 3600000) (ms.natAbs / 60000 % 60)
          (ms.natAbs / 1000 % 60) (ms.natAbs % 1000)
          (numChars (ms.natAbs / 1000 % 60)) (c, k + 1)
          = some (numChars (ms.natAbs / 1000 % 60)
              ++ List.replicate (k + 1) c) := by
        rw [renderToken_lit _ _ _ _ _ _ h1 h2 h3 h4,
          if_neg (numChars_ne_nil _)]
      calc format_time_span ms ('s' :: List.replicate (k + 1) c)
          = renderTokens (ms.natAbs / 3600000) (ms.natAbs / 60000 % 60)
              (ms.natAbs / 1000 % 60) (ms.natAbs % 1000) []
              (tokenize ('s' :: List.replicate (k + 1) c)) := rfl
        _ = _ := by
              rw [htok, renderTokens_some _ s1, renderTokens_some _ s2,
                renderTokens_nil]
    · have s0 : renderToken (ms.natAbs / 3600000) (ms.natAbs / 60000 % 60)
          (ms.natAbs / 1000 % 60) (ms.natAbs % 1000) [] (c, k + 1)
          = some [] := by
        rw [renderToken_lit _ _ _ _ _ _ h1 h2 h3 h4, if_pos rfl]
      calc format_time_span ms (List.replicate (k + 1) c)
          = renderTokens (ms.natAbs / 3600000) (ms.natAbs / 60000 % 60)
              (ms.natAbs / 1000 % 60) (ms.natAbs % 1000) []
              (tokenize (List.replicate (k + 1) c)) := rfl
        _ = _ := by
              rw [ht, renderTokens_some _ s0, renderTokens_nil]

/-- Claim C9 witness: at 0 ms the unknown character star after 's' passes
through as a literal, and a star-only pattern renders empty. -/
theorem c9_witness :
    format_time_span 0 ('s' :: List.replicate (0 + 1) '*')
      = some (numChars ((0 : Int).natAbs / 1000 % 60)
          ++ List.replicate (0 + 1) '*') ∧
    format_time_span 0 (List.replicate (0 + 1) '*') = some [] :=
  c9_total_literal_passthrough.2.1 0 '*' 0 (by decide) (by decide)
    (by decide) (by decide)

theorem utils_tokenize_cons (c : Char) (rest : List Char) :
    Utils.tokenize (c :: rest)
      = match Utils.tokenize rest with
        | [] => [(c, 1)]
        | (c', n) :: ts => if c = c' then (c, n + 1) :: ts
            else (c, 1) :: (c', n) :: ts := rfl

theorem utils_tokenize_eq (l : List Char) : Utils.tokenize l = tokenize l := by
  induction l with
  | nil => rfl
  | cons c rest ih => rw [utils_tokenize_cons, tokenize_cons, ih]

theorem utils_renderToken_eq : Utils.renderToken = renderToken := rfl

theorem utils_renderTokens_cons (hrs mins secs millis : Nat)
    (out : List Char) (t : Char × Nat) (ts : List (Char × Nat)) :
    Utils.renderTokens hrs mins secs millis out (t :: ts)
      = match Utils.renderToken hrs mins secs millis out t with
        | some o => Utils.renderTokens hrs mins secs millis o ts
        | none => none := rfl

theorem utils_renderTokens_eq (hrs mins secs millis : Nat)
    (ts : List (Char × Nat)) (out : List Char) :
    Utils.renderTokens hrs mins secs millis out ts
      = renderTokens hrs mins secs millis out ts := by
  induction ts generalizing out with
  | nil => rfl
  | cons t ts ih =>
    rw [utils_renderTokens_cons, renderTokens_cons, utils_renderToken_eq]
    cases hrt : renderToken hrs mins secs millis out t with
    | none => rfl
    | some o => exact ih o

/-- Claim C10: the two formatter implementations, src/utils/utils.rs and
src/utils/time.rs, agree on every duration and pattern. -/
theorem c10_formatters_agree (ms : Int) (p : List Char) :
    Utils.format_time_span ms p = format_time_span ms p := by
  show Utils.renderTokens (ms.natAbs / 3600000) (ms.natAbs / 60000 % 60)
      (ms.natAbs / 1000 % 60) (ms.natAbs % 1000) [] (Utils.tokenize p)
    = renderTokens (ms.natAbs / 3600000) (ms.natAbs / 60000 % 60)
      (ms.natAbs / 1000 % 60) (ms.natAbs % 1000) [] (tokenize p)
  rw [utils_tokenize_eq, utils_renderTokens_eq]

end TuxSplit

